import Mathlib

/-!
Shallow embedding of the StorageHub per-file content-addressed storage engine
(`client/file-manager`: `in_memory.rs` and `rocksdb.rs`).

Modelling conventions:
* A chunk is an opaque byte buffer (`List Nat`); chunk ids are the `u64`
  sequence numbers.  SCALE encode/decode of `ChunkWithId` is an exact
  round trip, so a stored leaf is modelled directly as the `(id, data)` pair.
* The Merkle-Patricia trie over the leaves is modelled by its content: the
  canonical (key-sorted) association list of `(ChunkId, Chunk)` pairs.  The
  cryptographic root hash is modelled as that canonical list itself - an
  injective fingerprint of the content, which is exactly the property the
  code relies on when it compares roots (`root == fingerprint`, `root`
  changed after an insert).
* Rust `Result` is `Except`, Rust `Option` is `Option`.  A Rust
  `expect`/`unwrap` panic is modelled as `none` at an outer `Option` layer.
* `&mut self` methods return the post state next to the result, also on the
  error paths, mirroring the partial mutations the code performs before
  returning an error.
* The durable backend's node database is modelled at whole-trie granularity:
  the persistent CHUNKS column holds the set of materialized trie contents,
  and the `PrefixedMemoryDB` overlay holds reference-counted pending node
  groups.  `StorageDb.writeFails` is the failure injection for
  `KeyValueDB::write`.
-/

namespace StorageHub

/-- Opaque byte buffer holding a chunk's data (`Chunk = Vec<u8>`). -/
abbrev Chunk := List Nat

/-- 64-bit chunk sequence number (`ChunkId`). -/
abbrev ChunkId := Nat

/-- Content-derived file key (`HasherOutT<T>`), kept opaque. -/
abbrev FileKey := Nat

/-- 32-byte bucket id, kept opaque. -/
abbrev BucketId := Nat

namespace ChunkMap

/-- Canonical (key-sorted) association list of chunk leaves: the content of
one file data trie. -/
abbrev T := List (ChunkId × Chunk)

/-- Trie point lookup by chunk id. -/
def lookup : T → ChunkId → Option Chunk
  | [], _ => none
  | (j, d) :: rest, i => if i = j then some d else lookup rest i

/-- Trie containment check by chunk id. -/
def containsKey (m : T) (i : ChunkId) : Bool :=
  (lookup m i).isSome

/-- Sorted insertion of a leaf, keeping the representation canonical. -/
def insert : T → ChunkId → Chunk → T
  | [], i, d => [(i, d)]
  | (j, e) :: rest, i, d =>
    if i < j then (i, d) :: (j, e) :: rest
    else if i = j then (i, d) :: rest
    else (j, e) :: insert rest i d

/-- Removal of the leaf with the given chunk id (no-op when absent). -/
def remove : T → ChunkId → T
  | [], _ => []
  | (j, e) :: rest, i => if i = j then rest else (j, e) :: remove rest i

/-- Sequential read of the requested chunk ids, failing on the first id with
no leaf, as the proof-generation loop does. -/
def readAll (m : T) : List ChunkId → Option (List (ChunkId × Chunk))
  | [] => some []
  | i :: rest =>
    match lookup m i with
    | none => none
    | some d =>
      match readAll m rest with
      | none => none
      | some l => some ((i, d) :: l)

end ChunkMap

/-- Trie root hash, modelled as the canonical content it fingerprints. -/
abbrev Root := ChunkMap.T

/-- Canonical empty-trie root (`default_with_root`). -/
def emptyRoot : Root := []

/-- FILE_CHUNK_SIZE from `primitives/constants`: each chunk is 2^10 bytes. -/
def FILE_CHUNK_SIZE : Nat := 2 ^ 10

/-- File metadata (`FileMetadata` in `shc_common::types`). -/
structure FileMetadata where
  owner : List Nat
  bucket_id : BucketId
  file_size : Nat
  fingerprint : Root
  location : List Nat
deriving DecidableEq

/-- Modelled from the spec: chunks_count = ceil(file_size / CHUNK_SIZE); the
helper itself lives in `shc_common`, outside the embedded sources. -/
def FileMetadata.chunks_count (m : FileMetadata) : Nat :=
  (m.file_size + FILE_CHUNK_SIZE - 1) / FILE_CHUNK_SIZE

/-- Read-path error enumeration (`FileStorageError`). -/
inductive FileStorageError
  | FileDoesNotExist
  | FileChunkDoesNotExist
  | IncompleteFile
  | FingerprintAndStoredFileMismatch
  | FailedToConstructTrieIter
  | FailedToGetFileChunk
  | FailedToParseChunkWithId
  | FailedToParseFileMetadata
  | FailedToParseFingerprint
  | FailedToParsePartialRoot
  | FailedToHasherOutput
  | FailedToGenerateCompactProof
  | FailedToReadStorage
  | FailedToWriteToStorage
  | FailedToParseKey
  | FileAlreadyExists
  | FailedToDeleteFileChunk
deriving DecidableEq

/-- Write-path error enumeration (`FileStorageWriteError`). -/
inductive FileStorageWriteError
  | FileDoesNotExist
  | FileChunkAlreadyExists
  | FailedToGetFileChunk
  | FailedToInsertFileChunk
  | FailedToDeleteChunk
  | FailedToPersistChanges
  | FailedToUpdatePartialRoot
  | FailedToWriteToStorage
  | FailedToGetStoredChunksCount
  | FailedToConstructTrieIter
  | FingerprintAndStoredFileMismatch
  | FailedToParseFileMetadata
  | FailedToParseFingerprint
  | FailedToParsePartialRoot
  | FailedToReadStorage
deriving DecidableEq

/-- Outcome of a registry-level `write_chunk` (`FileStorageWriteOutcome`). -/
inductive FileStorageWriteOutcome
  | FileComplete
  | FileIncomplete
deriving DecidableEq

/-- Trie-level proof (`FileProof`); the compact proof is modelled by the
leaves it proves, keyed to the root it is generated against. -/
structure FileProof where
  proof : List (ChunkId × Chunk)
  fingerprint : Root
deriving DecidableEq

/-- Registry-level proof envelope (`FileKeyProof`). -/
structure FileKeyProof where
  file_metadata : FileMetadata
  proof : List (ChunkId × Chunk)
  fingerprint : Root
deriving DecidableEq

/-- Bundles a trie proof with the file's metadata (`to_file_key_proof`). -/
def FileProof.to_file_key_proof (p : FileProof) (m : FileMetadata) : FileKeyProof :=
  ⟨m, p.proof, p.fingerprint⟩

/-- First-match association-list lookup (HashMap / column `get`). -/
def alLookup {α β : Type} [DecidableEq α] : List (α × β) → α → Option β
  | [], _ => none
  | (k, v) :: rest, a => if a = k then some v else alLookup rest a

/-- Removes every entry with the given key (HashMap / column `delete`). -/
def alRemove {α β : Type} [DecidableEq α] : List (α × β) → α → List (α × β)
  | [], _ => []
  | (k, v) :: rest, a => if k = a then alRemove rest a else (k, v) :: alRemove rest a

/-- Key-replacing insertion (HashMap / column `put`). -/
def alInsert {α β : Type} [DecidableEq α] (l : List (α × β)) (a : α) (b : β) :
    List (α × β) :=
  alRemove l a ++ [(a, b)]

/-- Set-style insertion (HashSet `insert`, column `put` of an empty value). -/
def setInsert {α : Type} [DecidableEq α] (l : List α) (a : α) : List α :=
  if a ∈ l then l else l ++ [a]

/-- Removes every occurrence of an element (column `delete`). -/
def listEraseAll {α : Type} [DecidableEq α] : List α → α → List α
  | [], _ => []
  | x :: rest, a => if x = a then listEraseAll rest a else x :: listEraseAll rest a

/-- Ephemeral file data trie (`InMemoryFileDataTrie`): the in-process node
store and root, represented by the canonical trie content. -/
structure InMemoryFileDataTrie where
  contents : ChunkMap.T
deriving DecidableEq

namespace InMemoryFileDataTrie

/-- Fresh empty trie (`InMemoryFileDataTrie::new`). -/
def new : InMemoryFileDataTrie := ⟨[]⟩

/-- Current root (`get_root`); the canonical fingerprint of the content. -/
def get_root (t : InMemoryFileDataTrie) : Root := t.contents

/-- Leaf count by full trie iteration (`stored_chunks_count`). -/
def stored_chunks_count (t : InMemoryFileDataTrie) : Except FileStorageError Nat :=
  .ok t.contents.length

/-- Point lookup plus decode (`get_chunk`). -/
def get_chunk (t : InMemoryFileDataTrie) (i : ChunkId) : Except FileStorageError Chunk :=
  match ChunkMap.lookup t.contents i with
  | none => .error .FileChunkDoesNotExist
  | some d => .ok d

/-- Write-once insertion (`write_chunk`): rejects an occupied slot. -/
def write_chunk (t : InMemoryFileDataTrie) (i : ChunkId) (d : Chunk) :
    Except FileStorageWriteError InMemoryFileDataTrie :=
  if ChunkMap.containsKey t.contents i then .error .FileChunkAlreadyExists
  else .ok ⟨ChunkMap.insert t.contents i d⟩

/-- Proof generation (`generate_proof`): reads every requested chunk through
a recorder and drains it into a compact proof keyed to the current root. -/
def generate_proof (t : InMemoryFileDataTrie) (ids : List ChunkId) :
    Except FileStorageError FileProof :=
  match ChunkMap.readAll t.contents ids with
  | none => .error .FileChunkDoesNotExist
  | some pairs => .ok ⟨pairs, t.get_root⟩

/-- Full deletion (`delete`): reset to the canonical empty trie. -/
def delete (_t : InMemoryFileDataTrie) : Except FileStorageWriteError InMemoryFileDataTrie :=
  .ok ⟨[]⟩

end InMemoryFileDataTrie

/-- Ephemeral registry (`InMemoryFileStorage`): metadata map, trie map and
the bucket-prefix index of `bucket_id || file_key` composite keys. -/
structure InMemoryFileStorage where
  metadata : List (FileKey × FileMetadata)
  file_data : List (FileKey × InMemoryFileDataTrie)
  bucket_prefix_map : List (BucketId × FileKey)
deriving DecidableEq

namespace InMemoryFileStorage

/-- Metadata lookup (`get_metadata`); a missing key is an empty option. -/
def get_metadata (st : InMemoryFileStorage) (key : FileKey) :
    Except FileStorageError (Option FileMetadata) :=
  .ok (alLookup st.metadata key)

/-- Registration with a fresh empty trie (`insert_file`).  `none` models the
panic on a broken pairing invariant. -/
def insert_file (st : InMemoryFileStorage) (key : FileKey) (m : FileMetadata) :
    Option (Except FileStorageError Unit × InMemoryFileStorage) :=
  if (alLookup st.metadata key).isSome then some (.error .FileAlreadyExists, st)
  else
    let st1 := { st with metadata := alInsert st.metadata key m }
    if (alLookup st.file_data key).isSome then none
    else
      some (.ok (), { st1 with
        file_data := alInsert st1.file_data key InMemoryFileDataTrie.new,
        bucket_prefix_map := setInsert st1.bucket_prefix_map (m.bucket_id, key) })

/-- Registration together with an already populated trie
(`insert_file_with_data`). -/
def insert_file_with_data (st : InMemoryFileStorage) (key : FileKey)
    (m : FileMetadata) (fd : InMemoryFileDataTrie) :
    Option (Except FileStorageError Unit × InMemoryFileStorage) :=
  if (alLookup st.metadata key).isSome then some (.error .FileAlreadyExists, st)
  else
    let st1 := { st with metadata := alInsert st.metadata key m }
    if (alLookup st.file_data key).isSome then none
    else
      some (.ok (), { st1 with
        file_data := alInsert st1.file_data key fd,
        bucket_prefix_map := setInsert st1.bucket_prefix_map (m.bucket_id, key) })

/-- Deregistration (`delete_file`): removes the metadata and trie entries;
the bucket-prefix index is not touched by this realization. -/
def delete_file (st : InMemoryFileStorage) (key : FileKey) :
    Except FileStorageError Unit × InMemoryFileStorage :=
  (.ok (), { st with
    metadata := alRemove st.metadata key,
    file_data := alRemove st.file_data key })

/-- Registry-level chunk count, delegating to the file's trie
(`stored_chunks_count`). -/
def stored_chunks_count (st : InMemoryFileStorage) (key : FileKey) :
    Except FileStorageError Nat :=
  match alLookup st.file_data key with
  | none => .error .FileDoesNotExist
  | some fd => fd.stored_chunks_count

/-- Registry-level chunk read, delegating to the file's trie (`get_chunk`). -/
def get_chunk (st : InMemoryFileStorage) (key : FileKey) (i : ChunkId) :
    Except FileStorageError Chunk :=
  match alLookup st.file_data key with
  | none => .error .FileDoesNotExist
  | some fd => fd.get_chunk i

/-- Registry-level chunk write (`write_chunk`): delegates to the trie, then
re-evaluates completeness; the trie mutation is kept also when the
fingerprint mismatch error is returned.  `none` models the panic on a broken
pairing invariant. -/
def write_chunk (st : InMemoryFileStorage) (key : FileKey) (i : ChunkId) (d : Chunk) :
    Option (Except FileStorageWriteError FileStorageWriteOutcome × InMemoryFileStorage) :=
  match alLookup st.file_data key with
  | none => some (.error .FileDoesNotExist, st)
  | some fd =>
    match fd.write_chunk i d with
    | .error e => some (.error e, st)
    | .ok fd' =>
      let st' := { st with file_data := alInsert st.file_data key fd' }
      match alLookup st.metadata key with
      | none => none
      | some m =>
        if m.chunks_count ≠ fd'.contents.length then some (.ok .FileIncomplete, st')
        else if m.fingerprint ≠ fd'.get_root then
          some (.error .FingerprintAndStoredFileMismatch, st')
        else some (.ok .FileComplete, st')

/-- Registry-level proof generation (`generate_proof`): completeness and
fingerprint checks, then delegation to the trie.  `none` models the panic on
a broken pairing invariant. -/
def generate_proof (st : InMemoryFileStorage) (key : FileKey) (ids : List ChunkId) :
    Option (Except FileStorageError FileKeyProof) :=
  match alLookup st.metadata key with
  | none => some (.error .FileDoesNotExist)
  | some m =>
    match alLookup st.file_data key with
    | none => none
    | some fd =>
      match fd.stored_chunks_count with
      | .error e => some (.error e)
      | .ok stored =>
        if m.chunks_count ≠ stored then some (.error .IncompleteFile)
        else if m.fingerprint ≠ fd.get_root then
          some (.error .FingerprintAndStoredFileMismatch)
        else
          match fd.generate_proof ids with
          | .error e => some (.error e)
          | .ok p => some (.ok (p.to_file_key_proof m))

end InMemoryFileStorage

/-- Persistence adapter (`StorageDb`): the CHUNKS column holding the
materialized trie node groups, with a failure injection for
`KeyValueDB::write`. -/
structure StorageDb where
  nodes : List Root
  writeFails : Bool
deriving DecidableEq

/-- Durable file data trie (`RocksDbFileDataTrie`): persistent storage, the
reference-counted in-memory overlay, and the root field advanced only by a
successful commit. -/
structure RocksDbFileDataTrie where
  storage : StorageDb
  overlay : List (Root × Int)
  root : Root
deriving DecidableEq

namespace RocksDbFileDataTrie

/-- Fresh trie (`new`): `default_with_root` places the empty-trie node in the
overlay with reference count one. -/
def new (s : StorageDb) : RocksDbFileDataTrie :=
  ⟨s, [(emptyRoot, 1)], emptyRoot⟩

/-- Reopen a trie from its current root with an empty overlay
(`from_existing`). -/
def from_existing (s : StorageDb) (r : Root) : RocksDbFileDataTrie :=
  ⟨s, [], r⟩

/-- Node availability of a trie content: `HashDB::get` serves from the
overlay when the reference count is positive and falls back to persistent
storage; the empty trie is readable without node fetches. -/
def nodesPresent (t : RocksDbFileDataTrie) (r : Root) : Bool :=
  decide (r = emptyRoot) ||
    (match alLookup t.overlay r with
     | some rc => decide (0 < rc) || decide (r ∈ t.storage.nodes)
     | none => decide (r ∈ t.storage.nodes))

/-- Reference-count adjustment in the overlay (`HashDB::insert` adds one,
`HashDB::remove` subtracts one). -/
def bump (ov : List (Root × Int)) (r : Root) (delta : Int) : List (Root × Int) :=
  match alLookup ov r with
  | some rc => alInsert ov r (rc + delta)
  | none => ov ++ [(r, delta)]

/-- Deferred-commit protocol (`commit`): a no-op when the root is unchanged;
otherwise `changes()` drains the overlay into a transaction (non-positive
reference counts become deletions, the rest upserts), the transaction is
written atomically, and only then is the root field advanced.  The drained
overlay is not restored when the write fails. -/
def commit (t : RocksDbFileDataTrie) (new_root : Root) :
    Except FileStorageError Unit × RocksDbFileDataTrie :=
  if t.root = new_root then (.ok (), t)
  else
    let tx := t.overlay
    let t1 := { t with overlay := [] }
    if t1.storage.writeFails then (.error .FailedToWriteToStorage, t1)
    else
      let nodes' := tx.foldl
        (fun ns p => if p.2 ≤ 0 then listEraseAll ns p.1 else setInsert ns p.1)
        t1.storage.nodes
      (.ok (), { storage := { nodes := nodes', writeFails := t1.storage.writeFails },
                 overlay := [], root := new_root })

/-- Current root (`get_root`). -/
def get_root (t : RocksDbFileDataTrie) : Root := t.root

/-- Leaf count by full trie iteration (`stored_chunks_count`); constructing
the iterator fails when the root's nodes are not available. -/
def stored_chunks_count (t : RocksDbFileDataTrie) : Except FileStorageError Nat :=
  if nodesPresent t t.root then .ok t.root.length
  else .error .FailedToConstructTrieIter

/-- Point lookup plus decode (`get_chunk`); the trie read fails when the
root's nodes are not available. -/
def get_chunk (t : RocksDbFileDataTrie) (i : ChunkId) : Except FileStorageError Chunk :=
  if nodesPresent t t.root then
    match ChunkMap.lookup t.root i with
    | none => .error .FileChunkDoesNotExist
    | some d => .ok d
  else .error .FailedToGetFileChunk

/-- Proof generation (`generate_proof`), reading every requested chunk
through the recorder at the current root. -/
def generate_proof (t : RocksDbFileDataTrie) (ids : List ChunkId) :
    Except FileStorageError FileProof :=
  if nodesPresent t t.root then
    match ChunkMap.readAll t.root ids with
    | none => .error .FileChunkDoesNotExist
    | some pairs => .ok ⟨pairs, t.root⟩
  else .error .FailedToGetFileChunk

/-- Write-once insertion (`write_chunk`): containment check, insertion
(dropping the mutable trie stores the new nodes in the overlay and
dereferences the replaced ones), then an immediate self-triggered commit of
the new root. -/
def write_chunk (t : RocksDbFileDataTrie) (i : ChunkId) (d : Chunk) :
    Except FileStorageWriteError Unit × RocksDbFileDataTrie :=
  if nodesPresent t t.root then
    if ChunkMap.containsKey t.root i then (.error .FileChunkAlreadyExists, t)
    else
      let new_root := ChunkMap.insert t.root i d
      let t1 := { t with overlay := bump (bump t.overlay new_root 1) t.root (-1) }
      match commit t1 new_root with
      | (.error _, t2) => (.error .FailedToPersistChanges, t2)
      | (.ok _, t2) => (.ok (), t2)
  else (.error .FailedToGetFileChunk, t)

/-- Full deletion (`delete`): removes the leaves for chunk ids
`0..stored_chunks_count()` and the root-bytes key (chunk trie keys are 8-byte
id encodings while the root key is 32 bytes, so that removal never matches a
chunk leaf), then calls `commit` with the pre-delete root - which the commit
skip path treats as an unchanged root - and finally sets the root field to
the post-removal root. -/
def delete (t : RocksDbFileDataTrie) :
    Except FileStorageWriteError Unit × RocksDbFileDataTrie :=
  match stored_chunks_count t with
  | .error _ => (.error .FailedToGetStoredChunksCount, t)
  | .ok cnt =>
    let trie_root_key := t.root
    let new_root := (List.range cnt).foldl (fun m i => ChunkMap.remove m i) t.root
    let t1 :=
      if new_root = t.root then t
      else { t with overlay := bump (bump t.overlay new_root 1) t.root (-1) }
    match commit t1 trie_root_key with
    | (.error _, t2) => (.error .FailedToPersistChanges, t2)
    | (.ok _, t2) => (.ok (), { t2 with root := new_root })

end RocksDbFileDataTrie

/-- Durable registry (`RocksDbFileStorage`): the shared persistence adapter
plus the METADATA, ROOTS (fingerprint to current partial root) and
BUCKET_PREFIX columns. -/
structure RocksDbFileStorage where
  storage : StorageDb
  metadataCol : List (FileKey × FileMetadata)
  rootsCol : List (Root × Root)
  bucketCol : List (BucketId × FileKey)
deriving DecidableEq

namespace RocksDbFileStorage

/-- Metadata lookup (`get_metadata`); a missing key is an empty option. -/
def get_metadata (st : RocksDbFileStorage) (key : FileKey) :
    Except FileStorageError (Option FileMetadata) :=
  .ok (alLookup st.metadataCol key)

/-- Registry-level chunk read (`get_chunk`): resolves the stored mapping
fingerprint to partial root and reopens the trie there.  `none` models the
`expect` panic when the partial-root pointer is missing. -/
def get_chunk (st : RocksDbFileStorage) (key : FileKey) (i : ChunkId) :
    Option (Except FileStorageError Chunk) :=
  match alLookup st.metadataCol key with
  | none => some (.error .FileDoesNotExist)
  | some m =>
    match alLookup st.rootsCol m.fingerprint with
    | none => none
    | some partial_root =>
      some ((RocksDbFileDataTrie.from_existing st.storage partial_root).get_chunk i)

/-- Registry-level chunk write (`write_chunk`): resolves the partial root,
delegates to the trie (any trie error is mapped to
`FailedToInsertFileChunk`), durably updates the partial-root pointer, then
re-checks only the chunk count - there is no fingerprint comparison on this
path.  `none` models the `expect` panic when the partial-root pointer is
missing. -/
def write_chunk (st : RocksDbFileStorage) (key : FileKey) (i : ChunkId) (d : Chunk) :
    Option (Except FileStorageWriteError FileStorageWriteOutcome × RocksDbFileStorage) :=
  match alLookup st.metadataCol key with
  | none => some (.error .FileDoesNotExist, st)
  | some m =>
    match alLookup st.rootsCol m.fingerprint with
    | none => none
    | some partial_root =>
      let ft := RocksDbFileDataTrie.from_existing st.storage partial_root
      match ft.write_chunk i d with
      | (.error _, ft') =>
        some (.error .FailedToInsertFileChunk, { st with storage := ft'.storage })
      | (.ok _, ft') =>
        let st1 := { st with storage := ft'.storage }
        if st1.storage.writeFails then some (.error .FailedToUpdatePartialRoot, st1)
        else
          let st2 := { st1 with rootsCol := alInsert st1.rootsCol m.fingerprint ft'.root }
          match ft'.stored_chunks_count with
          | .error _ => some (.error .FailedToConstructTrieIter, st2)
          | .ok stored =>
            if m.chunks_count ≠ stored then some (.ok .FileIncomplete, st2)
            else some (.ok .FileComplete, st2)

/-- Registry-level chunk count (`stored_chunks_count`): opens the
reconstructed trie directly at the metadata fingerprint, without resolving
the partial-root pointer. -/
def stored_chunks_count (st : RocksDbFileStorage) (key : FileKey) :
    Except FileStorageError Nat :=
  match alLookup st.metadataCol key with
  | none => .error .FileDoesNotExist
  | some m =>
    (RocksDbFileDataTrie.from_existing st.storage m.fingerprint).stored_chunks_count

/-- Registration of metadata with an empty partial root (`insert_file`):
one transaction putting the metadata entry and the fingerprint-to-empty-root
pointer, with no duplicate-key check. -/
def insert_file (st : RocksDbFileStorage) (key : FileKey) (m : FileMetadata) :
    Except FileStorageError Unit × RocksDbFileStorage :=
  if st.storage.writeFails then (.error .FailedToWriteToStorage, st)
  else
    (.ok (), { st with
      metadataCol := alInsert st.metadataCol key m,
      rootsCol := alInsert st.rootsCol m.fingerprint emptyRoot })

/-- Registration together with a populated trie (`insert_file_with_data`):
puts metadata, the fingerprint-to-current-root pointer and the
bucket-prefix entry, with no duplicate-key check. -/
def insert_file_with_data (st : RocksDbFileStorage) (key : FileKey)
    (m : FileMetadata) (ft : RocksDbFileDataTrie) :
    Except FileStorageError Unit × RocksDbFileStorage :=
  if st.storage.writeFails then (.error .FailedToWriteToStorage, st)
  else
    (.ok (), { st with
      metadataCol := alInsert st.metadataCol key m,
      rootsCol := alInsert st.rootsCol m.fingerprint ft.get_root,
      bucketCol := setInsert st.bucketCol (m.bucket_id, key) })

/-- Registry-level proof generation (`generate_proof`): resolves the partial
root, checks completeness and the fingerprint, then delegates to the trie.
`none` models the `expect` panic when the partial-root pointer is
missing. -/
def generate_proof (st : RocksDbFileStorage) (key : FileKey) (ids : List ChunkId) :
    Option (Except FileStorageError FileKeyProof) :=
  match alLookup st.metadataCol key with
  | none => some (.error .FileDoesNotExist)
  | some m =>
    match alLookup st.rootsCol m.fingerprint with
    | none => none
    | some partial_root =>
      let ft := RocksDbFileDataTrie.from_existing st.storage partial_root
      match ft.stored_chunks_count with
      | .error e => some (.error e)
      | .ok stored =>
        if m.chunks_count ≠ stored then some (.error .IncompleteFile)
        else if m.fingerprint ≠ ft.get_root then
          some (.error .FingerprintAndStoredFileMismatch)
        else
          match ft.generate_proof ids with
          | .error e => some (.error e)
          | .ok p => some (.ok (p.to_file_key_proof m))

/-- Deregistration (`delete_file`): opens the trie at the fingerprint (not
the partial root) and deletes it, then one transaction removing the
metadata, partial-root and bucket-prefix entries. -/
def delete_file (st : RocksDbFileStorage) (key : FileKey) :
    Except FileStorageError Unit × RocksDbFileStorage :=
  match alLookup st.metadataCol key with
  | none => (.error .FileDoesNotExist, st)
  | some m =>
    let ft := RocksDbFileDataTrie.from_existing st.storage m.fingerprint
    match ft.delete with
    | (.error _, ft') =>
      (.error .FailedToDeleteFileChunk, { st with storage := ft'.storage })
    | (.ok _, ft') =>
      let st1 := { st with storage := ft'.storage }
      if st1.storage.writeFails then (.error .FailedToWriteToStorage, st1)
      else
        (.ok (), { st1 with
          metadataCol := alRemove st1.metadataCol key,
          rootsCol := alRemove st1.rootsCol m.fingerprint,
          bucketCol := listEraseAll st1.bucketCol (m.bucket_id, key) })

end RocksDbFileStorage

/-! Helper lemmas about the canonical trie content and the association-list
columns. -/

theorem ChunkMap.lookup_insert_self (m : ChunkMap.T) (i : ChunkId) (d : Chunk) :
    ChunkMap.lookup (ChunkMap.insert m i d) i = some d := by
  induction m with
  | nil => simp [ChunkMap.insert, ChunkMap.lookup]
  | cons p rest ih =>
    obtain ⟨j, e⟩ := p
    by_cases hlt : i < j
    · simp [ChunkMap.insert, hlt, ChunkMap.lookup]
    · by_cases heq : i = j
      · simp [ChunkMap.insert, hlt, heq, ChunkMap.lookup]
      · simp [ChunkMap.insert, hlt, heq, ChunkMap.lookup, ih]

theorem ChunkMap.lookup_insert_ne (m : ChunkMap.T) (i j : ChunkId) (d : Chunk)
    (h : j ≠ i) :
    ChunkMap.lookup (ChunkMap.insert m i d) j = ChunkMap.lookup m j := by
  induction m with
  | nil => simp [ChunkMap.insert, ChunkMap.lookup, h]
  | cons p rest ih =>
    obtain ⟨k, e⟩ := p
    by_cases hlt : i < k
    · simp [ChunkMap.insert, hlt, ChunkMap.lookup, h]
    · by_cases heq : i = k
      · subst heq
        simp [ChunkMap.insert, hlt, ChunkMap.lookup, h]
      · by_cases hjk : j = k
        · simp [ChunkMap.insert, hlt, heq, ChunkMap.lookup, hjk]
        · simp [ChunkMap.insert, hlt, heq, ChunkMap.lookup, hjk, ih]

theorem ChunkMap.length_insert (m : ChunkMap.T) (i : ChunkId) (d : Chunk)
    (h : ChunkMap.containsKey m i = false) :
    (ChunkMap.insert m i d).length = m.length + 1 := by
  induction m with
  | nil => simp [ChunkMap.insert]
  | cons p rest ih =>
    obtain ⟨j, e⟩ := p
    by_cases hlt : i < j
    · simp [ChunkMap.insert, hlt]
    · by_cases heq : i = j
      · exfalso
        simp [ChunkMap.containsKey, ChunkMap.lookup, heq] at h
      · have hrest : ChunkMap.containsKey rest i = false := by
          simpa [ChunkMap.containsKey, ChunkMap.lookup, heq] using h
        simp [ChunkMap.insert, hlt, heq, ih hrest]

theorem ChunkMap.insert_ne_self (m : ChunkMap.T) (i : ChunkId) (d : Chunk)
    (h : ChunkMap.containsKey m i = false) :
    ChunkMap.insert m i d ≠ m := by
  intro hcontra
  have := ChunkMap.length_insert m i d h
  rw [hcontra] at this
  omega

theorem alLookup_alRemove_self {α β : Type} [DecidableEq α]
    (l : List (α × β)) (a : α) : alLookup (alRemove l a) a = none := by
  induction l with
  | nil => simp [alRemove, alLookup]
  | cons p rest ih =>
    obtain ⟨k, v⟩ := p
    by_cases hk : k = a
    · simp [alRemove, hk, ih]
    · have hak : a ≠ k := fun hc => hk hc.symm
      simp [alRemove, hk, alLookup, hak, ih]

theorem alLookup_alRemove_ne {α β : Type} [DecidableEq α]
    (l : List (α × β)) (a b : α) (h : b ≠ a) :
    alLookup (alRemove l a) b = alLookup l b := by
  induction l with
  | nil => simp [alRemove]
  | cons p rest ih =>
    obtain ⟨k, v⟩ := p
    by_cases hk : k = a
    · subst hk
      simp [alRemove, alLookup, h, ih]
    · by_cases hbk : b = k
      · simp [alRemove, hk, alLookup, hbk]
      · simp [alRemove, hk, alLookup, hbk, ih]

theorem alLookup_append_of_none {α β : Type} [DecidableEq α]
    (l1 l2 : List (α × β)) (a : α) (h : alLookup l1 a = none) :
    alLookup (l1 ++ l2) a = alLookup l2 a := by
  induction l1 with
  | nil => simp
  | cons p rest ih =>
    obtain ⟨k, v⟩ := p
    by_cases hak : a = k
    · simp [alLookup, hak] at h
    · simp [alLookup, hak] at h ⊢
      exact ih h

theorem alLookup_alInsert_self {α β : Type} [DecidableEq α]
    (l : List (α × β)) (a : α) (v : β) :
    alLookup (alInsert l a v) a = some v := by
  unfold alInsert
  rw [alLookup_append_of_none _ _ _ (alLookup_alRemove_self l a)]
  simp [alLookup]

theorem alLookup_alInsert_ne {α β : Type} [DecidableEq α]
    (l : List (α × β)) (a b : α) (v : β) (h : b ≠ a) :
    alLookup (alInsert l a v) b = alLookup l b := by
  unfold alInsert
  induction l with
  | nil => simp [alRemove, alLookup, h]
  | cons p rest ih =>
    obtain ⟨k, w⟩ := p
    by_cases hk : k = a
    · subst hk
      have hbk : b ≠ k := h
      simp [alRemove, alLookup, hbk, ih]
    · by_cases hbk : b = k
      · simp [alRemove, hk, alLookup, hbk]
      · simp [alRemove, hk, alLookup, hbk, ih]

theorem mem_setInsert_self {α : Type} [DecidableEq α] (l : List α) (a : α) :
    a ∈ setInsert l a := by
  unfold setInsert
  by_cases h : a ∈ l
  · simp [h]
  · simp [h]

theorem mem_setInsert_of_mem {α : Type} [DecidableEq α] (l : List α) (a b : α)
    (h : b ∈ l) : b ∈ setInsert l a := by
  unfold setInsert
  by_cases ha : a ∈ l
  · simp [ha, h]
  · simp [ha, h]

theorem mem_listEraseAll_iff {α : Type} [DecidableEq α] (l : List α) (a b : α)
    (h : b ≠ a) : b ∈ listEraseAll l a ↔ b ∈ l := by
  induction l with
  | nil => simp [listEraseAll]
  | cons x rest ih =>
    by_cases hx : x = a
    · subst hx
      simp [listEraseAll, ih, h]
    · simp [listEraseAll, hx, ih]

/-- Shape of a successful durable `write_chunk` on a trie reopened from its
root: the new leaf is inserted, the transaction persists the new trie's
nodes and drops the replaced ones, the overlay is drained and the root field
is advanced. -/
theorem rdbWriteChunkOkShape (s : StorageDb) (r : Root) (i : ChunkId) (d : Chunk)
    (hp : RocksDbFileDataTrie.nodesPresent (RocksDbFileDataTrie.from_existing s r) r = true)
    (hc : ChunkMap.containsKey r i = false)
    (hw : s.writeFails = false) :
    RocksDbFileDataTrie.write_chunk (RocksDbFileDataTrie.from_existing s r) i d =
      (.ok (), ⟨⟨listEraseAll (setInsert s.nodes (ChunkMap.insert r i d)) r, false⟩,
                [], ChunkMap.insert r i d⟩) := by
  have hne : ChunkMap.insert r i d ≠ r := ChunkMap.insert_ne_self r i d hc
  have hne' : r ≠ ChunkMap.insert r i d := fun hcontra => hne hcontra.symm
  unfold RocksDbFileDataTrie.write_chunk
  simp only [RocksDbFileDataTrie.from_existing] at hp ⊢
  rw [hp]
  simp only [hc, if_true, if_false, Bool.false_eq_true]
  unfold RocksDbFileDataTrie.bump
  simp only [alLookup, List.nil_append, hne', if_false, reduceIte]
  unfold RocksDbFileDataTrie.commit
  simp only [hne', if_false, reduceIte, hw, Bool.false_eq_true, List.foldl]
  norm_num [alInsert, alRemove, setInsert]

/-- Node availability of the post-write trie at its new root. -/
theorem rdbPostWriteNodesPresent (nodes : List Root) (r new_root : Root)
    (hnr : new_root ≠ r) :
    RocksDbFileDataTrie.nodesPresent
      ⟨⟨listEraseAll (setInsert nodes new_root) r, false⟩, [], new_root⟩ new_root = true := by
  unfold RocksDbFileDataTrie.nodesPresent
  simp only [alLookup]
  have hmem : new_root ∈ listEraseAll (setInsert nodes new_root) r :=
    (mem_listEraseAll_iff _ _ _ hnr).mpr (mem_setInsert_self _ _)
  simp [hmem]

/-- Inversion of a successful ephemeral `write_chunk`. -/
theorem imWriteChunkOkCases (t t' : InMemoryFileDataTrie) (i : ChunkId) (d : Chunk)
    (h : t.write_chunk i d = .ok t') :
    ChunkMap.containsKey t.contents i = false ∧
    t' = ⟨ChunkMap.insert t.contents i d⟩ := by
  unfold InMemoryFileDataTrie.write_chunk at h
  by_cases hc : ChunkMap.containsKey t.contents i
  · rw [if_pos hc] at h
    cases h
  · rw [if_neg hc] at h
    cases h
    exact ⟨Bool.not_eq_true _ |>.mp hc, rfl⟩

/-- Inversion of a successful durable `write_chunk` on a trie reopened from
its root. -/
theorem rdbWriteChunkOkCases (s : StorageDb) (r : Root) (t' : RocksDbFileDataTrie)
    (i : ChunkId) (d : Chunk)
    (h : (RocksDbFileDataTrie.from_existing s r).write_chunk i d = (.ok (), t')) :
    RocksDbFileDataTrie.nodesPresent ⟨s, [], r⟩ r = true ∧
    ChunkMap.containsKey r i = false ∧ s.writeFails = false ∧
    t' = ⟨⟨listEraseAll (setInsert s.nodes (ChunkMap.insert r i d)) r, false⟩,
          [], ChunkMap.insert r i d⟩ := by
  by_cases hp : RocksDbFileDataTrie.nodesPresent ⟨s, [], r⟩ r = true
  · by_cases hc : ChunkMap.containsKey r i
    · exfalso
      unfold RocksDbFileDataTrie.write_chunk at h
      simp only [RocksDbFileDataTrie.from_existing] at h
      rw [hp] at h
      simp only [hc, if_true, reduceIte] at h
      cases h
    · by_cases hw : s.writeFails
      · exfalso
        unfold RocksDbFileDataTrie.write_chunk at h
        simp only [RocksDbFileDataTrie.from_existing] at h
        rw [hp] at h
        simp only [hc, Bool.false_eq_true, if_false, reduceIte] at h
        unfold RocksDbFileDataTrie.commit at h
        have hne' : r ≠ ChunkMap.insert r i d :=
          fun hcontra => ChunkMap.insert_ne_self r i d (by simpa using hc) hcontra.symm
        simp only [hne', if_false, reduceIte, hw, if_true] at h
        cases h
      · have hshape := rdbWriteChunkOkShape s r i d hp (by simpa using hc)
          (by simpa using hw)
        rw [hshape] at h
        injection h with h1 h2
        exact ⟨hp, by simpa using hc, by simpa using hw, h2.symm⟩
  · exfalso
    unfold RocksDbFileDataTrie.write_chunk at h
    simp only [RocksDbFileDataTrie.from_existing] at h
    rw [Bool.not_eq_true] at hp
    rw [hp] at h
    simp only [Bool.false_eq_true, if_false, reduceIte] at h
    cases h

/-- C3: for every file data trie (both realizations; the durable trie opened
from its root as every caller does), after a successful `write_chunk i d` a
second `write_chunk i d'` fails with `FileChunkAlreadyExists` regardless of
`d'`, the trie state is unchanged by the rejected write, and the stored
chunk for `i` remains `d`. -/
theorem chunks_are_write_once :
    (∀ (t t' : InMemoryFileDataTrie) (i : ChunkId) (d d' : Chunk),
      t.write_chunk i d = .ok t' →
      t'.write_chunk i d' = .error .FileChunkAlreadyExists ∧ t'.get_chunk i = .ok d)
    ∧
    (∀ (s : StorageDb) (r : Root) (t' : RocksDbFileDataTrie) (i : ChunkId) (d d' : Chunk),
      (RocksDbFileDataTrie.from_existing s r).write_chunk i d = (.ok (), t') →
      t'.write_chunk i d' = (.error .FileChunkAlreadyExists, t') ∧
      t'.get_chunk i = .ok d) := by
  constructor
  · intro t t' i d d' h
    unfold InMemoryFileDataTrie.write_chunk at h
    by_cases hc : ChunkMap.containsKey t.contents i
    · rw [if_pos hc] at h
      cases h
    · rw [if_neg hc] at h
      cases h
      constructor
      · unfold InMemoryFileDataTrie.write_chunk
        simp [ChunkMap.containsKey, ChunkMap.lookup_insert_self]
      · unfold InMemoryFileDataTrie.get_chunk
        simp [ChunkMap.lookup_insert_self]
  · intro s r t' i d d' h
    by_cases hp : RocksDbFileDataTrie.nodesPresent ⟨s, [], r⟩ r = true
    · by_cases hc : ChunkMap.containsKey r i
      · exfalso
        unfold RocksDbFileDataTrie.write_chunk at h
        simp only [RocksDbFileDataTrie.from_existing] at h
        rw [hp] at h
        simp only [hc, if_true, reduceIte] at h
        cases h
      · by_cases hw : s.writeFails
        · exfalso
          unfold RocksDbFileDataTrie.write_chunk at h
          simp only [RocksDbFileDataTrie.from_existing] at h
          rw [hp] at h
          simp only [hc, Bool.false_eq_true, if_false, reduceIte] at h
          unfold RocksDbFileDataTrie.commit at h
          have hne' : r ≠ ChunkMap.insert r i d :=
            fun hcontra => ChunkMap.insert_ne_self r i d (by simpa using hc) hcontra.symm
          simp only [hne', if_false, reduceIte, hw, if_true] at h
          cases h
        · have hshape := rdbWriteChunkOkShape s r i d hp (by simpa using hc)
            (by simpa using hw)
          rw [hshape] at h
          injection h with h1 h2
          subst h2
          have hnr : ChunkMap.insert r i d ≠ r :=
            ChunkMap.insert_ne_self r i d (by simpa using hc)
          have hpres := rdbPostWriteNodesPresent s.nodes r (ChunkMap.insert r i d) hnr
          constructor
          · unfold RocksDbFileDataTrie.write_chunk
            rw [hpres]
            simp [ChunkMap.containsKey, ChunkMap.lookup_insert_self]
          · unfold RocksDbFileDataTrie.get_chunk
            rw [hpres]
            simp [ChunkMap.lookup_insert_self]
    · exfalso
      unfold RocksDbFileDataTrie.write_chunk at h
      simp only [RocksDbFileDataTrie.from_existing] at h
      rw [Bool.not_eq_true] at hp
      rw [hp] at h
      simp only [Bool.false_eq_true, if_false, reduceIte] at h
      cases h

/-- Witness for the write-once theorem at concrete inputs for both
realizations. -/
theorem chunks_are_write_once_witness :
    (InMemoryFileDataTrie.write_chunk ⟨[(0, [1])]⟩ 0 [2] =
        .error .FileChunkAlreadyExists ∧
      InMemoryFileDataTrie.get_chunk ⟨[(0, [1])]⟩ 0 = .ok [1])
    ∧
    (RocksDbFileDataTrie.write_chunk
        ⟨⟨[[(0, [1])]], false⟩, [], [(0, [1])]⟩ 0 [2] =
        (.error .FileChunkAlreadyExists, ⟨⟨[[(0, [1])]], false⟩, [], [(0, [1])]⟩) ∧
      RocksDbFileDataTrie.get_chunk ⟨⟨[[(0, [1])]], false⟩, [], [(0, [1])]⟩ 0 = .ok [1]) :=
  ⟨chunks_are_write_once.1 ⟨[]⟩ ⟨[(0, [1])]⟩ 0 [1] [2] rfl,
   chunks_are_write_once.2 ⟨[], false⟩ [] ⟨⟨[[(0, [1])]], false⟩, [], [(0, [1])]⟩
     0 [1] [2] rfl⟩

/-- C5: for every file data trie (both realizations; the durable trie opened
from its root as every caller does), a successful `write_chunk i d` followed
by `get_chunk i` returns exactly `d`. -/
theorem write_then_get_round_trip :
    (∀ (t t' : InMemoryFileDataTrie) (i : ChunkId) (d : Chunk),
      t.write_chunk i d = .ok t' → t'.get_chunk i = .ok d)
    ∧
    (∀ (s : StorageDb) (r : Root) (t' : RocksDbFileDataTrie) (i : ChunkId) (d : Chunk),
      (RocksDbFileDataTrie.from_existing s r).write_chunk i d = (.ok (), t') →
      t'.get_chunk i = .ok d) := by
  constructor
  · intro t t' i d h
    obtain ⟨hc, ht'⟩ := imWriteChunkOkCases t t' i d h
    subst ht'
    unfold InMemoryFileDataTrie.get_chunk
    simp [ChunkMap.lookup_insert_self]
  · intro s r t' i d h
    obtain ⟨hp, hc, hw, ht'⟩ := rdbWriteChunkOkCases s r t' i d h
    subst ht'
    have hnr : ChunkMap.insert r i d ≠ r := ChunkMap.insert_ne_self r i d hc
    have hpres := rdbPostWriteNodesPresent s.nodes r (ChunkMap.insert r i d) hnr
    unfold RocksDbFileDataTrie.get_chunk
    rw [hpres]
    simp [ChunkMap.lookup_insert_self]

/-- Witness for the round-trip theorem at concrete inputs for both
realizations. -/
theorem write_then_get_round_trip_witness :
    InMemoryFileDataTrie.get_chunk ⟨[(3, [7, 8])]⟩ 3 = .ok [7, 8] ∧
    RocksDbFileDataTrie.get_chunk
      ⟨⟨[[(3, [7, 8])]], false⟩, [], [(3, [7, 8])]⟩ 3 = .ok [7, 8] :=
  ⟨write_then_get_round_trip.1 ⟨[]⟩ ⟨[(3, [7, 8])]⟩ 3 [7, 8] rfl,
   write_then_get_round_trip.2 ⟨[], false⟩ []
     ⟨⟨[[(3, [7, 8])]], false⟩, [], [(3, [7, 8])]⟩ 3 [7, 8] rfl⟩

/-- C4 (counterexample): a concrete failing commit keeps the pre-commit root
but does not keep the overlay intact - the pending entry present before the
call is gone afterwards, refuting the claim that the overlay still contains
every pending entry. -/
theorem commit_failure_clears_overlay_counterexample :
    RocksDbFileDataTrie.commit ⟨⟨[], true⟩, [([(0, [1])], 1)], []⟩ [(0, [1])] =
      (.error .FailedToWriteToStorage, ⟨⟨[], true⟩, [], []⟩) ∧
    (⟨⟨[], true⟩, [([(0, [1])], 1)], []⟩ : RocksDbFileDataTrie).overlay ≠
      (⟨⟨[], true⟩, [], []⟩ : RocksDbFileDataTrie).overlay :=
  ⟨rfl, by decide⟩

/-- C4 (amended): when the underlying storage write fails, `commit` reports
the error and leaves the root field at the pre-commit root, but the overlay
has already been drained into the discarded transaction: the post state is
the pre state with an emptied overlay, so the pending entries are lost
rather than retained for a retry. -/
theorem commit_failure_preserves_root_but_drains_overlay :
    ∀ (t : RocksDbFileDataTrie) (new_root : Root),
      t.storage.writeFails = true → t.root ≠ new_root →
      t.commit new_root =
        (.error .FailedToWriteToStorage, { t with overlay := [] }) := by
  intro t new_root hw hne
  unfold RocksDbFileDataTrie.commit
  simp [hne, hw]

/-- Witness for the failed-commit theorem at a concrete trie state. -/
theorem commit_failure_preserves_root_but_drains_overlay_witness :
    RocksDbFileDataTrie.commit ⟨⟨[], true⟩, [([], 1), ([(1, [2])], 1)], [(1, [2])]⟩
        [(1, [2]), (2, [3])] =
      (.error .FailedToWriteToStorage, ⟨⟨[], true⟩, [], [(1, [2])]⟩) :=
  commit_failure_preserves_root_but_drains_overlay
    ⟨⟨[], true⟩, [([], 1), ([(1, [2])], 1)], [(1, [2])]⟩
    [(1, [2]), (2, [3])] rfl (by decide)

/-- C6 (code bug): the durable `delete` computes the removals in the overlay
and then calls `commit` with the pre-delete root, which the commit skip path
treats as an unchanged root, so nothing is ever flushed: for a trie holding
chunk 0, the persistent store still holds the old trie nodes after a
successful `delete` and the removals live only in the in-memory overlay.
Moreover the removal loop iterates `0..stored_chunks_count()`, so for a trie
holding only chunk id 3 a successful `delete` removes nothing: the count
stays 1 and the chunk is still readable. -/
theorem rocksdb_delete_leaves_removals_in_overlay :
    RocksDbFileDataTrie.delete ⟨⟨[[(0, [1])]], false⟩, [], [(0, [1])]⟩ =
      (.ok (), ⟨⟨[[(0, [1])]], false⟩, [([], 1), ([(0, [1])], -1)], []⟩) ∧
    RocksDbFileDataTrie.delete ⟨⟨[[(3, [9])]], false⟩, [], [(3, [9])]⟩ =
      (.ok (), ⟨⟨[[(3, [9])]], false⟩, [], [(3, [9])]⟩) ∧
    RocksDbFileDataTrie.stored_chunks_count
      ⟨⟨[[(3, [9])]], false⟩, [], [(3, [9])]⟩ = .ok 1 ∧
    RocksDbFileDataTrie.get_chunk ⟨⟨[[(3, [9])]], false⟩, [], [(3, [9])]⟩ 3 =
      .ok [9] :=
  ⟨rfl, rfl, rfl, rfl⟩

theorem not_mem_listEraseAll_self {α : Type} [DecidableEq α] (l : List α) (a : α) :
    a ∉ listEraseAll l a := by
  induction l with
  | nil => simp [listEraseAll]
  | cons x rest ih =>
    by_cases hx : x = a
    · simpa [listEraseAll, hx] using ih
    · simp [listEraseAll, hx, ih]
      exact fun hc => hx hc.symm

/-- C7 (counterexample): the ephemeral `delete_file` reports success and
removes the metadata and trie entries, but the bucket-prefix index still
lists the composite key of the deleted file afterwards. -/
theorem in_memory_delete_file_keeps_bucket_index_counterexample :
    InMemoryFileStorage.delete_file ⟨[(5, ⟨[], 9, 1024, [(0, [1])], []⟩)],
        [(5, ⟨[(0, [1])]⟩)], [(9, 5)]⟩ 5 =
      (.ok (), ⟨[], [], [(9, 5)]⟩) ∧
    (9, 5) ∈ (⟨[], [], [(9, 5)]⟩ : InMemoryFileStorage).bucket_prefix_map :=
  ⟨rfl, by decide⟩

/-- C7 (amended): a successful `delete_file` removes the metadata entry and
the trie (ephemeral) or partial-root pointer (durable), so `get_metadata`
afterwards returns the empty option; the durable realization also removes
the bucket-prefix entry `bucket_id || key`, but the ephemeral realization
leaves its bucket-prefix index untouched. -/
theorem delete_file_removes_registration :
    (∀ (st : InMemoryFileStorage) (key : FileKey),
      (st.delete_file key).1 = .ok () ∧
      InMemoryFileStorage.get_metadata (st.delete_file key).2 key = .ok none ∧
      alLookup (st.delete_file key).2.file_data key = none ∧
      (st.delete_file key).2.bucket_prefix_map = st.bucket_prefix_map)
    ∧
    (∀ (st st' : RocksDbFileStorage) (key : FileKey) (m : FileMetadata),
      alLookup st.metadataCol key = some m →
      st.delete_file key = (.ok (), st') →
      RocksDbFileStorage.get_metadata st' key = .ok none ∧
      alLookup st'.rootsCol m.fingerprint = none ∧
      (m.bucket_id, key) ∉ st'.bucketCol) := by
  constructor
  · intro st key
    refine ⟨rfl, ?_, ?_, rfl⟩
    · unfold InMemoryFileStorage.get_metadata InMemoryFileStorage.delete_file
      simp [alLookup_alRemove_self]
    · unfold InMemoryFileStorage.delete_file
      simp [alLookup_alRemove_self]
  · intro st st' key m hm h
    unfold RocksDbFileStorage.delete_file at h
    simp only [hm] at h
    rcases hdel : RocksDbFileDataTrie.delete
        (RocksDbFileDataTrie.from_existing st.storage m.fingerprint) with ⟨res, ft'⟩
    rw [hdel] at h
    cases res with
    | error e => simp at h
    | ok u =>
      by_cases hw : ft'.storage.writeFails
      · simp only [hw, if_true, reduceIte] at h
        cases h
      · simp only [hw, Bool.false_eq_true, if_false, reduceIte] at h
        injection h with h1 h2
        subst h2
        refine ⟨?_, ?_, ?_⟩
        · unfold RocksDbFileStorage.get_metadata
          simp [alLookup_alRemove_self]
        · simp [alLookup_alRemove_self]
        · simp only
          exact not_mem_listEraseAll_self _ _

/-- Witness for the delete-file theorem at concrete registry states for both
realizations. -/
theorem delete_file_removes_registration_witness :
    ((InMemoryFileStorage.delete_file ⟨[(5, ⟨[], 9, 2048, [], []⟩)],
          [(5, ⟨[]⟩)], [(9, 5)]⟩ 5).1 = .ok () ∧
      InMemoryFileStorage.get_metadata
        (InMemoryFileStorage.delete_file ⟨[(5, ⟨[], 9, 2048, [], []⟩)],
          [(5, ⟨[]⟩)], [(9, 5)]⟩ 5).2 5 = .ok none ∧
      alLookup (InMemoryFileStorage.delete_file ⟨[(5, ⟨[], 9, 2048, [], []⟩)],
          [(5, ⟨[]⟩)], [(9, 5)]⟩ 5).2.file_data 5 = none ∧
      (InMemoryFileStorage.delete_file ⟨[(5, ⟨[], 9, 2048, [], []⟩)],
          [(5, ⟨[]⟩)], [(9, 5)]⟩ 5).2.bucket_prefix_map =
        (⟨[(5, ⟨[], 9, 2048, [], []⟩)], [(5, ⟨[]⟩)], [(9, 5)]⟩ :
          InMemoryFileStorage).bucket_prefix_map)
    ∧
    (RocksDbFileStorage.get_metadata
        ⟨⟨[[(0, [2])]], false⟩, [], [], []⟩ 4 = .ok none ∧
      alLookup (⟨⟨[[(0, [2])]], false⟩, [], [], []⟩ :
          RocksDbFileStorage).rootsCol [(0, [2])] = none ∧
      ((7 : BucketId), (4 : FileKey)) ∉
        (⟨⟨[[(0, [2])]], false⟩, [], [], []⟩ : RocksDbFileStorage).bucketCol) := by
  constructor
  · exact delete_file_removes_registration.1
      ⟨[(5, ⟨[], 9, 2048, [], []⟩)], [(5, ⟨[]⟩)], [(9, 5)]⟩ 5
  · have h := delete_file_removes_registration.2
      ⟨⟨[[(0, [2])]], false⟩, [(4, ⟨[], 7, 1, [(0, [2])], []⟩)],
        [([(0, [2])], [(0, [2])])], [(7, 4)]⟩
      ⟨⟨[[(0, [2])]], false⟩, [], [], []⟩ 4 ⟨[], 7, 1, [(0, [2])], []⟩ rfl rfl
    exact h

/-- C8 (counterexample): the durable `insert_file` performs no duplicate-key
check: for a key that is already registered with upload progress, it reports
success and resets the partial-root pointer to the empty root instead of
failing with `FileAlreadyExists`. -/
theorem rocksdb_insert_file_overwrites_counterexample :
    alLookup (⟨⟨[], false⟩, [(5, ⟨[], 7, 1, [(0, [9])], []⟩)],
        [([(0, [9])], [(0, [1])])], []⟩ : RocksDbFileStorage).metadataCol 5 =
      some ⟨[], 7, 1, [(0, [9])], []⟩ ∧
    RocksDbFileStorage.insert_file
        ⟨⟨[], false⟩, [(5, ⟨[], 7, 1, [(0, [9])], []⟩)],
          [([(0, [9])], [(0, [1])])], []⟩ 5 ⟨[], 7, 1, [(0, [9])], []⟩ =
      (.ok (), ⟨⟨[], false⟩, [(5, ⟨[], 7, 1, [(0, [9])], []⟩)],
        [([(0, [9])], [])], []⟩) ∧
    alLookup (⟨⟨[], false⟩, [(5, ⟨[], 7, 1, [(0, [9])], []⟩)],
        [([(0, [9])], [])], []⟩ : RocksDbFileStorage).rootsCol [(0, [9])] =
      some [] :=
  ⟨rfl, rfl, rfl⟩

/-- C8 (amended): the ephemeral `insert_file` fails with `FileAlreadyExists`
on a registered key, leaving the registration unchanged, and otherwise
registers the metadata with a fresh trie at the canonical empty root; the
durable `insert_file` performs no duplicate-key check and unconditionally
writes the metadata entry and a partial-root pointer reset to the canonical
empty-trie root. -/
theorem insert_file_duplicate_handling :
    (∀ (st : InMemoryFileStorage) (key : FileKey) (m : FileMetadata),
      (alLookup st.metadata key).isSome = true →
      st.insert_file key m = some (.error .FileAlreadyExists, st))
    ∧
    (∀ (st : InMemoryFileStorage) (key : FileKey) (m : FileMetadata),
      alLookup st.metadata key = none →
      alLookup st.file_data key = none →
      st.insert_file key m = some (.ok (),
        ⟨alInsert st.metadata key m,
         alInsert st.file_data key InMemoryFileDataTrie.new,
         setInsert st.bucket_prefix_map (m.bucket_id, key)⟩) ∧
      (alLookup (alInsert st.file_data key InMemoryFileDataTrie.new) key).map
        InMemoryFileDataTrie.get_root = some emptyRoot)
    ∧
    (∀ (st : RocksDbFileStorage) (key : FileKey) (m : FileMetadata),
      st.storage.writeFails = false →
      st.insert_file key m = (.ok (),
        { st with metadataCol := alInsert st.metadataCol key m,
                  rootsCol := alInsert st.rootsCol m.fingerprint emptyRoot })) := by
  refine ⟨?_, ?_, ?_⟩
  · intro st key m h
    unfold InMemoryFileStorage.insert_file
    simp [h]
  · intro st key m h1 h2
    constructor
    · unfold InMemoryFileStorage.insert_file
      simp [h1, h2]
    · rw [alLookup_alInsert_self]
      rfl
  · intro st key m hw
    unfold RocksDbFileStorage.insert_file
    simp [hw]

/-- Witness for the insert-file theorem at concrete registry states. -/
theorem insert_file_duplicate_handling_witness :
    InMemoryFileStorage.insert_file
        ⟨[(5, ⟨[], 9, 1024, [], []⟩)], [(5, ⟨[]⟩)], [(9, 5)]⟩ 5 ⟨[], 9, 1024, [], []⟩ =
      some (.error .FileAlreadyExists,
        ⟨[(5, ⟨[], 9, 1024, [], []⟩)], [(5, ⟨[]⟩)], [(9, 5)]⟩) ∧
    (InMemoryFileStorage.insert_file ⟨[], [], []⟩ 5 ⟨[], 9, 1024, [], []⟩ =
        some (.ok (),
          ⟨alInsert [] 5 ⟨[], 9, 1024, [], []⟩,
           alInsert [] 5 InMemoryFileDataTrie.new, setInsert [] (9, 5)⟩) ∧
      (alLookup (alInsert [] 5 InMemoryFileDataTrie.new) 5).map
        InMemoryFileDataTrie.get_root = some emptyRoot) ∧
    RocksDbFileStorage.insert_file
        ⟨⟨[], false⟩, [(5, ⟨[], 7, 1, [(0, [9])], []⟩)],
          [([(0, [9])], [(0, [1])])], []⟩ 6 ⟨[], 8, 1, [(1, [4])], []⟩ =
      (.ok (),
        ⟨⟨[], false⟩,
         alInsert [(5, ⟨[], 7, 1, [(0, [9])], []⟩)] 6 ⟨[], 8, 1, [(1, [4])], []⟩,
         alInsert [([(0, [9])], [(0, [1])])] [(1, [4])] emptyRoot,
         []⟩) :=
  ⟨insert_file_duplicate_handling.1
     ⟨[(5, ⟨[], 9, 1024, [], []⟩)], [(5, ⟨[]⟩)], [(9, 5)]⟩ 5 ⟨[], 9, 1024, [], []⟩ rfl,
   insert_file_duplicate_handling.2.1 ⟨[], [], []⟩ 5 ⟨[], 9, 1024, [], []⟩ rfl rfl,
   insert_file_duplicate_handling.2.2
     ⟨⟨[], false⟩, [(5, ⟨[], 7, 1, [(0, [9])], []⟩)],
       [([(0, [9])], [(0, [1])])], []⟩ 6 ⟨[], 8, 1, [(1, [4])], []⟩ rfl⟩

/-- C2: for both realizations, registry-level `generate_proof` first checks
completeness (`IncompleteFile` when the stored count differs from
`chunks_count`), then the fingerprint (`FingerprintAndStoredFileMismatch`
when the trie root differs from the metadata fingerprint), and only when
both checks pass delegates to the trie and bundles the trie proof with the
file's metadata; the durable realization runs the checks on the trie
reopened at the resolved partial root. -/
theorem generate_proof_checks_completeness_and_fingerprint :
    (∀ (st : InMemoryFileStorage) (key : FileKey) (ids : List ChunkId)
       (m : FileMetadata) (fd : InMemoryFileDataTrie),
      alLookup st.metadata key = some m →
      alLookup st.file_data key = some fd →
      st.generate_proof key ids = some (
        if m.chunks_count ≠ fd.contents.length then .error .IncompleteFile
        else if m.fingerprint ≠ fd.get_root then
          .error .FingerprintAndStoredFileMismatch
        else (fd.generate_proof ids).map (fun p => p.to_file_key_proof m)))
    ∧
    (∀ (st : RocksDbFileStorage) (key : FileKey) (ids : List ChunkId)
       (m : FileMetadata) (P : Root) (cnt : Nat),
      alLookup st.metadataCol key = some m →
      alLookup st.rootsCol m.fingerprint = some P →
      (RocksDbFileDataTrie.from_existing st.storage P).stored_chunks_count = .ok cnt →
      st.generate_proof key ids = some (
        if m.chunks_count ≠ cnt then .error .IncompleteFile
        else if m.fingerprint ≠ P then .error .FingerprintAndStoredFileMismatch
        else ((RocksDbFileDataTrie.from_existing st.storage P).generate_proof ids).map
          (fun p => p.to_file_key_proof m))) := by
  constructor
  · intro st key ids m fd hm hfd
    unfold InMemoryFileStorage.generate_proof
    simp only [hm, hfd, InMemoryFileDataTrie.stored_chunks_count]
    by_cases hcc : m.chunks_count ≠ fd.contents.length
    · simp [hcc]
    · by_cases hfp : m.fingerprint ≠ fd.get_root
      · simp [hcc, hfp]
      · simp only [hcc, hfp, if_false, reduceIte]
        rcases hgp : fd.generate_proof ids with e | p
        · simp [hgp, Except.map]
        · simp [hgp, Except.map]
  · intro st key ids m P cnt hm hP hcnt
    unfold RocksDbFileStorage.generate_proof
    simp only [hm, hP, hcnt]
    by_cases hcc : m.chunks_count ≠ cnt
    · simp [hcc]
    · have hroot : (RocksDbFileDataTrie.from_existing st.storage P).get_root = P := rfl
      by_cases hfp : m.fingerprint ≠ P
      · simp [hcc, hroot, hfp]
      · simp only [hcc, hroot, hfp, if_false, reduceIte]
        rcases hgp : (RocksDbFileDataTrie.from_existing st.storage P).generate_proof ids
          with e | p
        · simp [hgp, Except.map]
        · simp [hgp, Except.map]

/-- Witness for the proof-generation theorem at concrete, complete and
matching registry states for both realizations. -/
theorem generate_proof_checks_witness :
    InMemoryFileStorage.generate_proof
        ⟨[(1, ⟨[], 7, 1, [(0, [7])], []⟩)], [(1, ⟨[(0, [7])]⟩)], [(7, 1)]⟩ 1 [0] =
      some (
        if (⟨[], 7, 1, [(0, [7])], []⟩ : FileMetadata).chunks_count ≠
            ([(0, [7])] : ChunkMap.T).length then .error .IncompleteFile
        else if (⟨[], 7, 1, [(0, [7])], []⟩ : FileMetadata).fingerprint ≠
            InMemoryFileDataTrie.get_root ⟨[(0, [7])]⟩ then
          .error .FingerprintAndStoredFileMismatch
        else (InMemoryFileDataTrie.generate_proof ⟨[(0, [7])]⟩ [0]).map
          (fun p => p.to_file_key_proof ⟨[], 7, 1, [(0, [7])], []⟩)) ∧
    RocksDbFileStorage.generate_proof
        ⟨⟨[[(0, [7])]], false⟩, [(1, ⟨[], 7, 1, [(0, [7])], []⟩)],
          [([(0, [7])], [(0, [7])])], []⟩ 1 [0] =
      some (
        if (⟨[], 7, 1, [(0, [7])], []⟩ : FileMetadata).chunks_count ≠ 1 then
          .error .IncompleteFile
        else if (⟨[], 7, 1, [(0, [7])], []⟩ : FileMetadata).fingerprint ≠
            [(0, [7])] then .error .FingerprintAndStoredFileMismatch
        else ((RocksDbFileDataTrie.from_existing ⟨[[(0, [7])]], false⟩
            [(0, [7])]).generate_proof [0]).map
          (fun p => p.to_file_key_proof ⟨[], 7, 1, [(0, [7])], []⟩)) :=
  ⟨generate_proof_checks_completeness_and_fingerprint.1
     ⟨[(1, ⟨[], 7, 1, [(0, [7])], []⟩)], [(1, ⟨[(0, [7])]⟩)], [(7, 1)]⟩ 1 [0]
     ⟨[], 7, 1, [(0, [7])], []⟩ ⟨[(0, [7])]⟩ rfl rfl,
   generate_proof_checks_completeness_and_fingerprint.2
     ⟨⟨[[(0, [7])]], false⟩, [(1, ⟨[], 7, 1, [(0, [7])], []⟩)],
       [([(0, [7])], [(0, [7])])], []⟩ 1 [0]
     ⟨[], 7, 1, [(0, [7])], []⟩ [(0, [7])] 1 rfl rfl rfl⟩

/-- C9 (counterexample): a durable registry with an incomplete file whose
partial root differs from the fingerprint: `get_chunk` resolves the partial
root and reads the stored chunk, but `stored_chunks_count` opens the trie
directly at the fingerprint, whose nodes are not materialized, and fails
instead of reporting the one stored chunk visible at the partial root. -/
theorem rocksdb_stored_chunks_count_ignores_partial_root_counterexample :
    RocksDbFileStorage.get_chunk
        ⟨⟨[[(0, [1])]], false⟩, [(5, ⟨[], 7, 2048, [(0, [1]), (1, [2])], []⟩)],
          [([(0, [1]), (1, [2])], [(0, [1])])], []⟩ 5 0 = some (.ok [1]) ∧
    RocksDbFileStorage.stored_chunks_count
        ⟨⟨[[(0, [1])]], false⟩, [(5, ⟨[], 7, 2048, [(0, [1]), (1, [2])], []⟩)],
          [([(0, [1]), (1, [2])], [(0, [1])])], []⟩ 5 =
      .error .FailedToConstructTrieIter ∧
    (RocksDbFileDataTrie.from_existing ⟨[[(0, [1])]], false⟩
        [(0, [1])]).stored_chunks_count = .ok 1 :=
  ⟨rfl, rfl, rfl⟩

/-- C9 (amended): for a registered durable file, `get_chunk` and
`write_chunk` resolve the stored mapping fingerprint to current partial root
and delegate on the trie reopened at that partial root - a successful write
advances the pointer to the partial-root trie updated with the new chunk -
but `stored_chunks_count` opens the reconstructed trie directly at the
fingerprint without resolving the pointer. -/
theorem rocksdb_chunk_ops_partial_root_resolution :
    ∀ (st : RocksDbFileStorage) (key : FileKey) (m : FileMetadata) (P : Root),
      alLookup st.metadataCol key = some m →
      alLookup st.rootsCol m.fingerprint = some P →
      (∀ i, st.get_chunk key i =
        some ((RocksDbFileDataTrie.from_existing st.storage P).get_chunk i)) ∧
      st.stored_chunks_count key =
        (RocksDbFileDataTrie.from_existing st.storage m.fingerprint).stored_chunks_count ∧
      (∀ (i : ChunkId) (d : Chunk) (out : FileStorageWriteOutcome)
         (st' : RocksDbFileStorage),
        st.write_chunk key i d = some (.ok out, st') →
        alLookup st'.rootsCol m.fingerprint = some (ChunkMap.insert P i d)) := by
  intro st key m P hm hP
  refine ⟨?_, ?_, ?_⟩
  · intro i
    unfold RocksDbFileStorage.get_chunk
    simp [hm, hP]
  · unfold RocksDbFileStorage.stored_chunks_count
    simp [hm]
  · intro i d out st' h
    unfold RocksDbFileStorage.write_chunk at h
    simp only [hm, hP] at h
    rcases hwc : RocksDbFileDataTrie.write_chunk
        (RocksDbFileDataTrie.from_existing st.storage P) i d with ⟨res, ft'⟩
    rw [hwc] at h
    cases res with
    | error e => simp at h
    | ok u =>
      obtain ⟨hp, hc, hwf, hft'⟩ := rdbWriteChunkOkCases st.storage P ft' i d
        (by rw [hwc])
      subst hft'
      simp only [hwf, Bool.false_eq_true, if_false, reduceIte] at h
      have hpres := rdbPostWriteNodesPresent st.storage.nodes P (ChunkMap.insert P i d)
        (ChunkMap.insert_ne_self P i d hc)
      rw [RocksDbFileDataTrie.stored_chunks_count, hpres] at h
      simp only [if_true, reduceIte] at h
      by_cases hcc : m.chunks_count = (ChunkMap.insert P i d).length
      · rw [if_neg (show ¬ m.chunks_count ≠ (ChunkMap.insert P i d).length by
          simp [hcc])] at h
        injection h with h1
        injection h1 with h2 h3
        subst h3
        exact alLookup_alInsert_self _ _ _
      · rw [if_pos hcc] at h
        injection h with h1
        injection h1 with h2 h3
        subst h3
        exact alLookup_alInsert_self _ _ _

/-- Witness for the partial-root-resolution theorem at a concrete durable
registry state. -/
theorem rocksdb_chunk_ops_partial_root_resolution_witness :
    (∀ i, RocksDbFileStorage.get_chunk
        ⟨⟨[[(0, [1])]], false⟩, [(5, ⟨[], 7, 2048, [(0, [1]), (1, [2])], []⟩)],
          [([(0, [1]), (1, [2])], [(0, [1])])], []⟩ 5 i =
      some ((RocksDbFileDataTrie.from_existing ⟨[[(0, [1])]], false⟩
        [(0, [1])]).get_chunk i)) ∧
    RocksDbFileStorage.stored_chunks_count
        ⟨⟨[[(0, [1])]], false⟩, [(5, ⟨[], 7, 2048, [(0, [1]), (1, [2])], []⟩)],
          [([(0, [1]), (1, [2])], [(0, [1])])], []⟩ 5 =
      (RocksDbFileDataTrie.from_existing ⟨[[(0, [1])]], false⟩
        [(0, [1]), (1, [2])]).stored_chunks_count ∧
    (∀ (i : ChunkId) (d : Chunk) (out : FileStorageWriteOutcome)
       (st' : RocksDbFileStorage),
      RocksDbFileStorage.write_chunk
          ⟨⟨[[(0, [1])]], false⟩, [(5, ⟨[], 7, 2048, [(0, [1]), (1, [2])], []⟩)],
            [([(0, [1]), (1, [2])], [(0, [1])])], []⟩ 5 i d = some (.ok out, st') →
      alLookup st'.rootsCol [(0, [1]), (1, [2])] =
        some (ChunkMap.insert [(0, [1])] i d)) :=
  rocksdb_chunk_ops_partial_root_resolution
    ⟨⟨[[(0, [1])]], false⟩, [(5, ⟨[], 7, 2048, [(0, [1]), (1, [2])], []⟩)],
      [([(0, [1]), (1, [2])], [(0, [1])])], []⟩ 5
    ⟨[], 7, 2048, [(0, [1]), (1, [2])], []⟩ [(0, [1])] rfl rfl

/-- Characterization of the ephemeral registry-level `write_chunk` on a
registered file. -/
theorem imWriteChunkCharacterization (st : InMemoryFileStorage) (key : FileKey)
    (i : ChunkId) (d : Chunk) (m : FileMetadata) (fd : InMemoryFileDataTrie)
    (hm : alLookup st.metadata key = some m)
    (hfd : alLookup st.file_data key = some fd) :
    st.write_chunk key i d =
      if ChunkMap.containsKey fd.contents i then
        some (.error .FileChunkAlreadyExists, st)
      else if m.chunks_count ≠ (ChunkMap.insert fd.contents i d).length then
        some (.ok .FileIncomplete,
          { st with file_data :=
              alInsert st.file_data key ⟨ChunkMap.insert fd.contents i d⟩ })
      else if m.fingerprint ≠ ChunkMap.insert fd.contents i d then
        some (.error .FingerprintAndStoredFileMismatch,
          { st with file_data :=
              alInsert st.file_data key ⟨ChunkMap.insert fd.contents i d⟩ })
      else
        some (.ok .FileComplete,
          { st with file_data :=
              alInsert st.file_data key ⟨ChunkMap.insert fd.contents i d⟩ }) := by
  unfold InMemoryFileStorage.write_chunk InMemoryFileDataTrie.write_chunk
  simp only [hm, hfd]
  by_cases hc : ChunkMap.containsKey fd.contents i
  · simp [hc]
  · simp [hc, InMemoryFileDataTrie.get_root]

/-- C10: in the ephemeral registry, when `write_chunk` returns the
`FingerprintAndStoredFileMismatch` error (the written chunk completed the
count but the root disagrees with the fingerprint), the chunk has
nevertheless been inserted and the state is not rolled back: the chunk is
readable, the stored count includes it and equals `chunks_count`, and
retrying the same write fails with `FileChunkAlreadyExists`. -/
theorem in_memory_mismatch_write_not_rolled_back :
    ∀ (st st' : InMemoryFileStorage) (key : FileKey) (i : ChunkId) (d : Chunk)
      (m : FileMetadata) (fd : InMemoryFileDataTrie),
      alLookup st.metadata key = some m →
      alLookup st.file_data key = some fd →
      st.write_chunk key i d = some (.error .FingerprintAndStoredFileMismatch, st') →
      InMemoryFileStorage.get_chunk st' key i = .ok d ∧
      InMemoryFileStorage.stored_chunks_count st' key = .ok (fd.contents.length + 1) ∧
      InMemoryFileStorage.stored_chunks_count st' key = .ok m.chunks_count ∧
      st'.write_chunk key i d = some (.error .FileChunkAlreadyExists, st') := by
  intro st st' key i d m fd hm hfd h
  rw [imWriteChunkCharacterization st key i d m fd hm hfd] at h
  by_cases hc : ChunkMap.containsKey fd.contents i
  · rw [if_pos hc] at h
    injection h with h1
    injection h1 with h2 h3
    injection h2 with h4
    cases h4
  · rw [if_neg (by simp [hc])] at h
    by_cases hcc : m.chunks_count = (ChunkMap.insert fd.contents i d).length
    · rw [if_neg (by simp [hcc])] at h
      by_cases hfp : m.fingerprint = ChunkMap.insert fd.contents i d
      · rw [if_neg (by simp [hfp])] at h
        injection h with h1
        injection h1 with h2 h3
        injection h2
      · rw [if_pos hfp] at h
        injection h with h1
        injection h1 with h2 h3
        subst h3
        have hfd' : alLookup
            (alInsert st.file_data key (⟨ChunkMap.insert fd.contents i d⟩ :
              InMemoryFileDataTrie)) key =
            some ⟨ChunkMap.insert fd.contents i d⟩ := alLookup_alInsert_self _ _ _
        have hcb : ChunkMap.containsKey fd.contents i = false := by simpa using hc
        refine ⟨?_, ?_, ?_, ?_⟩
        · unfold InMemoryFileStorage.get_chunk
          simp only [hfd']
          unfold InMemoryFileDataTrie.get_chunk
          simp [ChunkMap.lookup_insert_self]
        · unfold InMemoryFileStorage.stored_chunks_count
          simp only [hfd']
          unfold InMemoryFileDataTrie.stored_chunks_count
          simp [ChunkMap.length_insert fd.contents i d hcb]
        · unfold InMemoryFileStorage.stored_chunks_count
          simp only [hfd']
          unfold InMemoryFileDataTrie.stored_chunks_count
          simp [hcc]
        · unfold InMemoryFileStorage.write_chunk
          simp only [hfd']
          unfold InMemoryFileDataTrie.write_chunk
          simp [ChunkMap.containsKey, ChunkMap.lookup_insert_self]
    · rw [if_pos hcc] at h
      injection h with h1
      injection h1 with h2 h3
      injection h2

/-- Witness for the mismatch-not-rolled-back theorem at a concrete ephemeral
registry run: the declared fingerprint does not match the content written
for the single chunk. -/
theorem in_memory_mismatch_write_not_rolled_back_witness :
    InMemoryFileStorage.get_chunk
        ⟨[(1, ⟨[], 7, 1, [(0, [9])], []⟩)], [(1, ⟨[(0, [7])]⟩)], [(7, 1)]⟩ 1 0 =
      .ok [7] ∧
    InMemoryFileStorage.stored_chunks_count
        ⟨[(1, ⟨[], 7, 1, [(0, [9])], []⟩)], [(1, ⟨[(0, [7])]⟩)], [(7, 1)]⟩ 1 =
      .ok (([] : ChunkMap.T).length + 1) ∧
    InMemoryFileStorage.stored_chunks_count
        ⟨[(1, ⟨[], 7, 1, [(0, [9])], []⟩)], [(1, ⟨[(0, [7])]⟩)], [(7, 1)]⟩ 1 =
      .ok (⟨[], 7, 1, [(0, [9])], []⟩ : FileMetadata).chunks_count ∧
    InMemoryFileStorage.write_chunk
        ⟨[(1, ⟨[], 7, 1, [(0, [9])], []⟩)], [(1, ⟨[(0, [7])]⟩)], [(7, 1)]⟩ 1 0 [7] =
      some (.error .FileChunkAlreadyExists,
        ⟨[(1, ⟨[], 7, 1, [(0, [9])], []⟩)], [(1, ⟨[(0, [7])]⟩)], [(7, 1)]⟩) :=
  in_memory_mismatch_write_not_rolled_back
    ⟨[(1, ⟨[], 7, 1, [(0, [9])], []⟩)], [(1, ⟨[]⟩)], [(7, 1)]⟩
    ⟨[(1, ⟨[], 7, 1, [(0, [9])], []⟩)], [(1, ⟨[(0, [7])]⟩)], [(7, 1)]⟩
    1 0 [7] ⟨[], 7, 1, [(0, [9])], []⟩ ⟨[]⟩ rfl rfl rfl

/-- C1 (counterexample): in the durable registry, writing the last missing
chunk with data whose resulting root differs from the declared fingerprint
returns `FileComplete` instead of an error: the stored count equals
`chunks_count` but the new partial root disagrees with the fingerprint, and
`write_chunk` reports success anyway, refuting the claimed
count-and-fingerprint characterization for the durable realization. -/
theorem rocksdb_write_chunk_no_fingerprint_check_counterexample :
    RocksDbFileStorage.write_chunk
        ⟨⟨[], false⟩, [(1, ⟨[], 7, 1, [(0, [9])], []⟩)], [([(0, [9])], [])], []⟩
        1 0 [7] =
      some (.ok .FileComplete,
        ⟨⟨[[(0, [7])]], false⟩, [(1, ⟨[], 7, 1, [(0, [9])], []⟩)],
          [([(0, [9])], [(0, [7])])], []⟩) ∧
    ([(0, [7])] : Root).length =
      (⟨[], 7, 1, [(0, [9])], []⟩ : FileMetadata).chunks_count ∧
    ([(0, [7])] : Root) ≠ (⟨[], 7, 1, [(0, [9])], []⟩ : FileMetadata).fingerprint :=
  ⟨rfl, rfl, by decide⟩

/-- C1 (amended): after a registry-level `write_chunk` that reaches the
completeness re-check, the ephemeral realization returns `FileComplete` iff
the stored count equals `chunks_count` and the trie root equals the
fingerprint, `FileIncomplete` iff the count differs, and the
`FingerprintAndStoredFileMismatch` error exactly when the count matches but
the root differs; the durable realization returns `FileComplete` iff the
updated partial root holds `chunks_count` leaves, with no fingerprint
comparison, and never returns the fingerprint-mismatch error. -/
theorem registry_write_chunk_completeness_outcome :
    (∀ (st st' : InMemoryFileStorage) (key : FileKey) (i : ChunkId) (d : Chunk)
       (out : FileStorageWriteOutcome) (m : FileMetadata),
      alLookup st.metadata key = some m →
      st.write_chunk key i d = some (.ok out, st') →
      ((out = .FileComplete ↔
         InMemoryFileStorage.stored_chunks_count st' key = .ok m.chunks_count ∧
         (alLookup st'.file_data key).map InMemoryFileDataTrie.get_root =
           some m.fingerprint) ∧
       (out = .FileIncomplete ↔
         InMemoryFileStorage.stored_chunks_count st' key ≠ .ok m.chunks_count)))
    ∧
    (∀ (st st' : InMemoryFileStorage) (key : FileKey) (i : ChunkId) (d : Chunk)
       (m : FileMetadata),
      alLookup st.metadata key = some m →
      st.write_chunk key i d = some (.error .FingerprintAndStoredFileMismatch, st') →
      InMemoryFileStorage.stored_chunks_count st' key = .ok m.chunks_count ∧
      (alLookup st'.file_data key).map InMemoryFileDataTrie.get_root ≠
        some m.fingerprint)
    ∧
    (∀ (st st' : RocksDbFileStorage) (key : FileKey) (i : ChunkId) (d : Chunk)
       (out : FileStorageWriteOutcome) (m : FileMetadata),
      alLookup st.metadataCol key = some m →
      st.write_chunk key i d = some (.ok out, st') →
      (out = .FileComplete ↔
        (alLookup st'.rootsCol m.fingerprint).map List.length =
          some m.chunks_count))
    ∧
    (∀ (st st' : RocksDbFileStorage) (key : FileKey) (i : ChunkId) (d : Chunk)
       (e : FileStorageWriteError),
      st.write_chunk key i d = some (.error e, st') →
      e ≠ .FingerprintAndStoredFileMismatch) := by
  refine ⟨?_, ?_, ?_, ?_⟩
  · intro st st' key i d out m hm h
    rcases hfd : alLookup st.file_data key with _ | fd
    · exfalso
      unfold InMemoryFileStorage.write_chunk at h
      rw [hfd] at h
      injection h with h1
      injection h1 with h2 h3
      injection h2
    · rw [imWriteChunkCharacterization st key i d m fd hm hfd] at h
      by_cases hc : ChunkMap.containsKey fd.contents i
      · exfalso
        rw [if_pos hc] at h
        injection h with h1
        injection h1 with h2 h3
        injection h2
      · rw [if_neg (by simp [hc])] at h
        have hfd' : alLookup
            (alInsert st.file_data key (⟨ChunkMap.insert fd.contents i d⟩ :
              InMemoryFileDataTrie)) key =
            some ⟨ChunkMap.insert fd.contents i d⟩ := alLookup_alInsert_self _ _ _
        by_cases hcc : m.chunks_count = (ChunkMap.insert fd.contents i d).length
        · rw [if_neg (by simp [hcc])] at h
          by_cases hfp : m.fingerprint = ChunkMap.insert fd.contents i d
          · rw [if_neg (by simp [hfp])] at h
            injection h with h1
            injection h1 with h2 h3
            injection h2 with h4
            subst h4
            subst h3
            constructor
            · constructor
              · intro _
                refine ⟨?_, ?_⟩
                · unfold InMemoryFileStorage.stored_chunks_count
                  simp only [hfd']
                  unfold InMemoryFileDataTrie.stored_chunks_count
                  rw [hcc]
                · simp only [hfd', Option.map]
                  unfold InMemoryFileDataTrie.get_root
                  rw [hfp]
              · intro _
                rfl
            · constructor
              · intro hcontra
                cases hcontra
              · intro hcount
                exfalso
                apply hcount
                unfold InMemoryFileStorage.stored_chunks_count
                simp only [hfd']
                unfold InMemoryFileDataTrie.stored_chunks_count
                rw [hcc]
          · exfalso
            rw [if_pos hfp] at h
            injection h with h1
            injection h1 with h2 h3
            injection h2
        · rw [if_pos hcc] at h
          injection h with h1
          injection h1 with h2 h3
          injection h2 with h4
          subst h4
          subst h3
          constructor
          · constructor
            · intro hcontra
              cases hcontra
            · rintro ⟨hcnt, hroot⟩
              exfalso
              unfold InMemoryFileStorage.stored_chunks_count at hcnt
              simp only [hfd'] at hcnt
              unfold InMemoryFileDataTrie.stored_chunks_count at hcnt
              injection hcnt with h5
              exact hcc h5.symm
          · constructor
            · intro _
              unfold InMemoryFileStorage.stored_chunks_count
              simp only [hfd']
              unfold InMemoryFileDataTrie.stored_chunks_count
              intro hcontra
              injection hcontra with h5
              exact hcc h5.symm
            · intro _
              rfl
  · intro st st' key i d m hm h
    rcases hfd : alLookup st.file_data key with _ | fd
    · exfalso
      unfold InMemoryFileStorage.write_chunk at h
      rw [hfd] at h
      injection h with h1
      injection h1 with h2 h3
      injection h2 with h4
      cases h4
    · rw [imWriteChunkCharacterization st key i d m fd hm hfd] at h
      by_cases hc : ChunkMap.containsKey fd.contents i
      · exfalso
        rw [if_pos hc] at h
        injection h with h1
        injection h1 with h2 h3
        injection h2 with h4
        cases h4
      · rw [if_neg (by simp [hc])] at h
        have hfd' : alLookup
            (alInsert st.file_data key (⟨ChunkMap.insert fd.contents i d⟩ :
              InMemoryFileDataTrie)) key =
            some ⟨ChunkMap.insert fd.contents i d⟩ := alLookup_alInsert_self _ _ _
        by_cases hcc : m.chunks_count = (ChunkMap.insert fd.contents i d).length
        · rw [if_neg (by simp [hcc])] at h
          by_cases hfp : m.fingerprint = ChunkMap.insert fd.contents i d
          · exfalso
            rw [if_neg (by simp [hfp])] at h
            injection h with h1
            injection h1 with h2 h3
            injection h2
          · rw [if_pos hfp] at h
            injection h with h1
            injection h1 with h2 h3
            subst h3
            constructor
            · unfold InMemoryFileStorage.stored_chunks_count
              simp only [hfd']
              unfold InMemoryFileDataTrie.stored_chunks_count
              rw [hcc]
            · simp only [hfd', Option.map]
              unfold InMemoryFileDataTrie.get_root
              intro hcontra
              injection hcontra with h5
              exact hfp h5.symm
        · exfalso
          rw [if_pos hcc] at h
          injection h with h1
          injection h1 with h2 h3
          injection h2
  · intro st st' key i d out m hm h
    unfold RocksDbFileStorage.write_chunk at h
    simp only [hm] at h
    rcases hP : alLookup st.rootsCol m.fingerprint with _ | P
    · rw [hP] at h
      cases h
    · rw [hP] at h
      simp only at h
      rcases hwc : RocksDbFileDataTrie.write_chunk
          (RocksDbFileDataTrie.from_existing st.storage P) i d with ⟨res, ft'⟩
      rw [hwc] at h
      cases res with
      | error e => simp at h
      | ok u =>
        obtain ⟨hp, hc, hwf, hft'⟩ := rdbWriteChunkOkCases st.storage P ft' i d
          (by rw [hwc])
        subst hft'
        simp only [hwf, Bool.false_eq_true, if_false, reduceIte] at h
        have hpres := rdbPostWriteNodesPresent st.storage.nodes P
          (ChunkMap.insert P i d) (ChunkMap.insert_ne_self P i d hc)
        rw [RocksDbFileDataTrie.stored_chunks_count, hpres] at h
        simp only [if_true, reduceIte] at h
        have hroots : alLookup
            (alInsert st.rootsCol m.fingerprint (ChunkMap.insert P i d))
            m.fingerprint = some (ChunkMap.insert P i d) :=
          alLookup_alInsert_self _ _ _
        by_cases hcc : m.chunks_count = (ChunkMap.insert P i d).length
        · rw [if_neg (show ¬ m.chunks_count ≠ (ChunkMap.insert P i d).length by
            simp [hcc])] at h
          injection h with h1
          injection h1 with h2 h3
          injection h2 with h4
          subst h4
          subst h3
          constructor
          · intro _
            simp only [hroots, Option.map]
            rw [hcc]
          · intro _
            rfl
        · rw [if_pos hcc] at h
          injection h with h1
          injection h1 with h2 h3
          injection h2 with h4
          subst h4
          subst h3
          constructor
          · intro hcontra
            cases hcontra
          · intro hmap
            exfalso
            simp only [hroots, Option.map] at hmap
            injection hmap with h5
            exact hcc h5.symm
  · intro st st' key i d e h
    unfold RocksDbFileStorage.write_chunk at h
    rcases hm : alLookup st.metadataCol key with _ | m
    · rw [hm] at h
      simp only at h
      injection h with h1
      injection h1 with h2 h3
      injection h2 with h4
      subst h4
      intro hx
      cases hx
    · rw [hm] at h
      simp only at h
      rcases hP : alLookup st.rootsCol m.fingerprint with _ | P
      · rw [hP] at h
        cases h
      · rw [hP] at h
        simp only at h
        rcases hwc : RocksDbFileDataTrie.write_chunk
            (RocksDbFileDataTrie.from_existing st.storage P) i d with ⟨res, ft'⟩
        rw [hwc] at h
        cases res with
        | error e2 =>
          simp only at h
          injection h with h1
          injection h1 with h2 h3
          injection h2 with h4
          subst h4
          intro hx
          cases hx
        | ok u =>
          simp only at h
          by_cases hwf : ft'.storage.writeFails
          · simp only [hwf, if_true, reduceIte] at h
            injection h with h1
            injection h1 with h2 h3
            injection h2 with h4
            subst h4
            intro hx
            cases hx
          · simp only [hwf, Bool.false_eq_true, if_false, reduceIte] at h
            rcases hsc : ft'.stored_chunks_count with e3 | cnt
            · rw [hsc] at h
              simp only at h
              injection h with h1
              injection h1 with h2 h3
              injection h2 with h4
              subst h4
              intro hx
              cases hx
            · rw [hsc] at h
              simp only at h
              by_cases hcc : m.chunks_count ≠ cnt
              · rw [if_pos hcc] at h
                injection h with h1
                injection h1 with h2 h3
                injection h2
              · rw [if_neg hcc] at h
                injection h with h1
                injection h1 with h2 h3
                injection h2

/-- Witness for the completeness-outcome theorem: concrete runs exercising
each of its four components. -/
theorem registry_write_chunk_completeness_outcome_witness :
    ((FileStorageWriteOutcome.FileComplete = .FileComplete ↔
       InMemoryFileStorage.stored_chunks_count
           ⟨[(1, ⟨[], 7, 1, [(0, [7])], []⟩)], [(1, ⟨[(0, [7])]⟩)], [(7, 1)]⟩ 1 =
         .ok (⟨[], 7, 1, [(0, [7])], []⟩ : FileMetadata).chunks_count ∧
       (alLookup (⟨[(1, ⟨[], 7, 1, [(0, [7])], []⟩)], [(1, ⟨[(0, [7])]⟩)],
             [(7, 1)]⟩ : InMemoryFileStorage).file_data 1).map
           InMemoryFileDataTrie.get_root =
         some (⟨[], 7, 1, [(0, [7])], []⟩ : FileMetadata).fingerprint) ∧
     (FileStorageWriteOutcome.FileComplete = .FileIncomplete ↔
       InMemoryFileStorage.stored_chunks_count
           ⟨[(1, ⟨[], 7, 1, [(0, [7])], []⟩)], [(1, ⟨[(0, [7])]⟩)], [(7, 1)]⟩ 1 ≠
         .ok (⟨[], 7, 1, [(0, [7])], []⟩ : FileMetadata).chunks_count))
    ∧
    (InMemoryFileStorage.stored_chunks_count
         ⟨[(1, ⟨[], 7, 1, [(0, [9])], []⟩)], [(1, ⟨[(0, [7])]⟩)], [(7, 1)]⟩ 1 =
       .ok (⟨[], 7, 1, [(0, [9])], []⟩ : FileMetadata).chunks_count ∧
     (alLookup (⟨[(1, ⟨[], 7, 1, [(0, [9])], []⟩)], [(1, ⟨[(0, [7])]⟩)],
           [(7, 1)]⟩ : InMemoryFileStorage).file_data 1).map
         InMemoryFileDataTrie.get_root ≠
       some (⟨[], 7, 1, [(0, [9])], []⟩ : FileMetadata).fingerprint)
    ∧
    (FileStorageWriteOutcome.FileComplete = .FileComplete ↔
      (alLookup (⟨⟨[[(0, [7])]], false⟩, [(1, ⟨[], 7, 1, [(0, [9])], []⟩)],
            [([(0, [9])], [(0, [7])])], []⟩ : RocksDbFileStorage).rootsCol
          [(0, [9])]).map List.length =
        some (⟨[], 7, 1, [(0, [9])], []⟩ : FileMetadata).chunks_count)
    ∧
    FileStorageWriteError.FileDoesNotExist ≠ .FingerprintAndStoredFileMismatch :=
  ⟨registry_write_chunk_completeness_outcome.1
     ⟨[(1, ⟨[], 7, 1, [(0, [7])], []⟩)], [(1, ⟨[]⟩)], [(7, 1)]⟩
     ⟨[(1, ⟨[], 7, 1, [(0, [7])], []⟩)], [(1, ⟨[(0, [7])]⟩)], [(7, 1)]⟩
     1 0 [7] .FileComplete ⟨[], 7, 1, [(0, [7])], []⟩ rfl rfl,
   registry_write_chunk_completeness_outcome.2.1
     ⟨[(1, ⟨[], 7, 1, [(0, [9])], []⟩)], [(1, ⟨[]⟩)], [(7, 1)]⟩
     ⟨[(1, ⟨[], 7, 1, [(0, [9])], []⟩)], [(1, ⟨[(0, [7])]⟩)], [(7, 1)]⟩
     1 0 [7] ⟨[], 7, 1, [(0, [9])], []⟩ rfl rfl,
   registry_write_chunk_completeness_outcome.2.2.1
     ⟨⟨[], false⟩, [(1, ⟨[], 7, 1, [(0, [9])], []⟩)], [([(0, [9])], [])], []⟩
     ⟨⟨[[(0, [7])]], false⟩, [(1, ⟨[], 7, 1, [(0, [9])], []⟩)],
       [([(0, [9])], [(0, [7])])], []⟩
     1 0 [7] .FileComplete ⟨[], 7, 1, [(0, [9])], []⟩ rfl rfl,
   registry_write_chunk_completeness_outcome.2.2.2
     ⟨⟨[], false⟩, [], [], []⟩ ⟨⟨[], false⟩, [], [], []⟩ 1 0 [7]
     .FileDoesNotExist rfl⟩

end StorageHub
